import Mathlib

/-!
Verification of the uhyve hypervisor core (src/linux/uhyve.rs and
src/bin/uhyve.rs) against its natural-language specification.

The Rust code is shallowly embedded: pure computations become Lean
functions, the guarded volatile index updates of the shared network
rings become step functions on explicit ring states, and calls that can
panic or fail become Except-valued functions.  Machine integers (usize,
u64, u32, u16) are modelled as Nat; none of the verified computations
can overflow 64 bits for the inputs the claims quantify over, and no
wrap-around semantics is exercised by the source on those paths.
-/

set_option autoImplicit false

namespace Uhyve

/-! ## Guest memory layout constants (src/linux/uhyve.rs lines 31-33) -/

/-- Rust: const KVM_32BIT_MAX_MEM_SIZE: usize = 1 << 32. -/
def KVM_32BIT_MAX_MEM_SIZE : Nat := 1 <<< 32

/-- Rust: const KVM_32BIT_GAP_SIZE: usize = 768 << 20. -/
def KVM_32BIT_GAP_SIZE : Nat := 768 <<< 20

/-- Rust: const KVM_32BIT_GAP_START: usize = KVM_32BIT_MAX_MEM_SIZE - KVM_32BIT_GAP_SIZE. -/
def KVM_32BIT_GAP_START : Nat := KVM_32BIT_MAX_MEM_SIZE - KVM_32BIT_GAP_SIZE

theorem max_mem_size_eq : KVM_32BIT_MAX_MEM_SIZE = 4294967296 := by decide

theorem gap_size_eq : KVM_32BIT_GAP_SIZE = 805306368 := by decide

theorem gap_start_eq : KVM_32BIT_GAP_START = 3489660928 := by decide

/-! ## Guest memory regions installed by Uhyve::new (lines 183-214) -/

/-- One kvm_userspace_memory_region as programmed by Uhyve::new.  The
userspace_addr / host side is an offset-identical image of the guest
side, so only the guest-physical geometry is modelled. -/
structure KvmMemRegion where
  slot : Nat
  guest_phys_addr : Nat
  memory_size : Nat
  deriving Repr, DecidableEq

/-- Regions installed by Uhyve::new for a given specs.mem_size.  At the
call site the backing MmapMemory has guest_address = 0.  Slot 0 has
size `mem_size` when `mem_size < KVM_32BIT_GAP_START` and size
`KVM_32BIT_GAP_START` otherwise; slot 1 is installed only when
`mem_size > KVM_32BIT_GAP_START + KVM_32BIT_GAP_SIZE`. -/
def installedRegions (mem_size : Nat) : List KvmMemRegion :=
  let sz := if mem_size < KVM_32BIT_GAP_START then mem_size else KVM_32BIT_GAP_START
  let slot0 : KvmMemRegion := { slot := 0, guest_phys_addr := 0, memory_size := sz }
  if mem_size > KVM_32BIT_GAP_START + KVM_32BIT_GAP_SIZE then
    [slot0,
     { slot := 1
       guest_phys_addr := KVM_32BIT_GAP_START + KVM_32BIT_GAP_SIZE
       memory_size := mem_size - KVM_32BIT_GAP_START - KVM_32BIT_GAP_SIZE }]
  else
    [slot0]

/-- A guest physical address is backed by a region. -/
def KvmMemRegion.covers (r : KvmMemRegion) (addr : Nat) : Prop :=
  r.guest_phys_addr ≤ addr ∧ addr < r.guest_phys_addr + r.memory_size

instance (r : KvmMemRegion) (addr : Nat) : Decidable (r.covers addr) := by
  unfold KvmMemRegion.covers; infer_instance

/-- A guest physical address is backed by some installed region. -/
def coveredBy (rs : List KvmMemRegion) (addr : Nat) : Prop :=
  ∃ r ∈ rs, r.covers addr

instance (rs : List KvmMemRegion) (addr : Nat) : Decidable (coveredBy rs addr) := by
  unfold coveredBy; infer_instance

/-- Closed form of the installed region list: two regions exactly when
mem_size exceeds 2^32, one region otherwise. -/
theorem installedRegions_eq (m : Nat) :
    installedRegions m =
      if 4294967296 < m then
        [{ slot := 0, guest_phys_addr := 0, memory_size := 3489660928 },
         { slot := 1, guest_phys_addr := 4294967296, memory_size := m - 4294967296 }]
      else
        [{ slot := 0, guest_phys_addr := 0, memory_size := min m 3489660928 }] := by
  simp only [installedRegions, gap_start_eq, gap_size_eq]
  split_ifs <;> simp_all [KvmMemRegion.mk.injEq] <;> omega

/-- C1 (counterexample): the claim asserts that every mem_size exceeding
2^32 - 768 MiB gets two installed regions, but at mem_size = 2^32
(4 GiB, which exceeds KVM_32BIT_GAP_START) the constructor installs
exactly one region, because the slot-1 guard requires
mem_size > 2^32. -/
theorem C1_counterexample :
    KVM_32BIT_GAP_START < 2 ^ 32 ∧
    (installedRegions (2 ^ 32)).length = 1 ∧
    ¬ (installedRegions (2 ^ 32)).length = 2 := by
  decide

/-- C1 (amended): a second region (slot 1, starting at guest physical
2^32 and extending to mem_size) is installed exactly when mem_size
exceeds 2^32 = KVM_32BIT_GAP_START + KVM_32BIT_GAP_SIZE, not already
when mem_size exceeds KVM_32BIT_GAP_START; in every case the installed
regions exactly cover [0, mem_size) minus the hole
[KVM_32BIT_GAP_START, 2^32). -/
theorem C1_region_layout (mem_size addr : Nat) :
    (coveredBy (installedRegions mem_size) addr ↔
      (addr < mem_size ∧
        ¬ (KVM_32BIT_GAP_START ≤ addr ∧ addr < KVM_32BIT_MAX_MEM_SIZE))) ∧
    ((installedRegions mem_size).length = 2 ↔ KVM_32BIT_MAX_MEM_SIZE < mem_size) ∧
    ((installedRegions mem_size).length = 1 ↔ mem_size ≤ KVM_32BIT_MAX_MEM_SIZE) ∧
    (KVM_32BIT_MAX_MEM_SIZE < mem_size →
      (installedRegions mem_size).getLast? =
        some { slot := 1
               guest_phys_addr := KVM_32BIT_MAX_MEM_SIZE
               memory_size := mem_size - KVM_32BIT_MAX_MEM_SIZE }) := by
  rw [max_mem_size_eq, gap_start_eq, installedRegions_eq]
  by_cases h : 4294967296 < mem_size
  · rw [if_pos h]
    refine ⟨?_, ?_, ?_, fun _ => rfl⟩
    · simp only [coveredBy, KvmMemRegion.covers, List.mem_cons, List.not_mem_nil,
        or_false, exists_eq_or_imp, exists_eq_left]
      omega
    · simpa using h
    · simp; omega
  · rw [if_neg h]
    refine ⟨?_, ?_, ?_, fun hm => absurd hm h⟩
    · simp only [coveredBy, KvmMemRegion.covers, List.mem_cons, List.not_mem_nil,
        or_false, exists_eq_left]
      omega
    · simp; omega
    · simp; omega

theorem C1_region_layout_witness :
    coveredBy (installedRegions (2 ^ 33)) (2 ^ 32) ∧
    (installedRegions (2 ^ 33)).getLast? =
      some { slot := 1
             guest_phys_addr := KVM_32BIT_MAX_MEM_SIZE
             memory_size := 2 ^ 33 - KVM_32BIT_MAX_MEM_SIZE } := by
  have h := C1_region_layout (2 ^ 33) (2 ^ 32)
  exact ⟨h.1.mpr (by decide), h.2.2.2 (by decide)⟩

/-!
## Shared network ring (SharedQueue)

The SharedQueue layout (read index, written index, inner slot array of
len/data pairs) is given by the specification; the host-side loops that
operate on it are in src/linux/uhyve.rs.  The compile-time constant
UHYVE_QUEUE_SIZE lives outside src/, so the queue size is kept as a
parameter qsz throughout.
-/

/-- One ring slot: a length field and a payload buffer. -/
structure QueueSlot where
  len : Nat
  data : List Nat
  deriving Repr, DecidableEq

/-- Ring state: consumer index, producer index, slot array. -/
structure SharedQueue where
  read : Nat
  written : Nat
  inner : List QueueSlot
  deriving Repr, DecidableEq

/-- Default slot used for out-of-range access in the embedding. -/
def emptySlot : QueueSlot := { len := 0, data := [] }

/-- Body of the TX consumer (writer thread) for ONE received wake token
(src/linux/uhyve.rs lines 62-78): read written and read, and IF the
distance is positive (the source uses if, not while), send slot
read mod qsz truncated to its len field and increment read.  Returns
the new ring state and the packet sent to the TAP device, if any. -/
def txConsumerStep (qsz : Nat) (q : SharedQueue) : SharedQueue × Option (List Nat) :=
  let written := q.written
  let read := q.read
  let distance := written - read
  if 0 < distance then
    let idx := read % qsz
    let slot := q.inner.getD idx emptySlot
    ({ q with read := read + 1 }, some (slot.data.take slot.len))
  else
    (q, none)

/-- Effect of receiving k wake tokens in sequence: iterate the one-token
body, collecting the packets sent to the TAP device. -/
def txConsumeTokens (qsz : Nat) : Nat → SharedQueue → SharedQueue × List (List Nat)
  | 0, q => (q, [])
  | k + 1, q =>
    let step := txConsumerStep qsz q
    let rest := txConsumeTokens qsz k step.1
    (rest.1, step.2.toList ++ rest.2)

theorem txConsumerStep_pos (qsz : Nat) (q : SharedQueue) (h : 0 < q.written - q.read) :
    txConsumerStep qsz q =
      ({ q with read := q.read + 1 },
        some ((q.inner.getD (q.read % qsz) emptySlot).data.take
          (q.inner.getD (q.read % qsz) emptySlot).len)) := by
  simp [txConsumerStep, h]

theorem txConsumerStep_none (qsz : Nat) (q : SharedQueue) (h : ¬ 0 < q.written - q.read) :
    txConsumerStep qsz q = (q, none) := by
  simp [txConsumerStep, h]

/-- A queue with two produced packets pending and all slots holding a
one-byte payload. -/
def txTwoPending : SharedQueue :=
  { read := 0, written := 2, inner := List.replicate 8 { len := 1, data := [42] } }

/-- C2 (counterexample): the consumer body runs once per wake token and
sends AT MOST ONE packet (the source guards with if, not while), so a
single coalesced wake token does not drain a ring holding two packets:
one packet remains undelivered. -/
theorem C2_counterexample :
    (txConsumeTokens 8 1 txTwoPending).1.written
        - (txConsumeTokens 8 1 txTwoPending).1.read = 1 ∧
    ¬ ((txConsumeTokens 8 1 txTwoPending).1.written
        - (txConsumeTokens 8 1 txTwoPending).1.read = 0) ∧
    (txConsumeTokens 8 1 txTwoPending).2.length = 1 := by
  decide

/-- C2 (amended): per wake token the consumer sends at most one packet:
when written - read > 0 it sends slot read mod qsz (truncated to its
len field) and increments read, otherwise nothing.  After k tokens on a
ring with N = written - read pending packets, exactly min k N packets
have been delivered, written is unchanged, read has advanced by
min k N, and the ring is drained if and only if k ≥ N. -/
theorem C2_consumer_one_packet_per_token (qsz k : Nat) (q : SharedQueue) :
    (0 < q.written - q.read →
      txConsumerStep qsz q =
        ({ q with read := q.read + 1 },
          some ((q.inner.getD (q.read % qsz) emptySlot).data.take
            (q.inner.getD (q.read % qsz) emptySlot).len))) ∧
    (txConsumeTokens qsz k q).1.written = q.written ∧
    (txConsumeTokens qsz k q).1.read = q.read + min k (q.written - q.read) ∧
    (txConsumeTokens qsz k q).2.length = min k (q.written - q.read) ∧
    ((txConsumeTokens qsz k q).1.written - (txConsumeTokens qsz k q).1.read = 0 ↔
      q.written - q.read ≤ k) := by
  refine ⟨txConsumerStep_pos qsz q, ?_⟩
  induction k generalizing q with
  | zero =>
    refine ⟨rfl, ?_, ?_, ?_⟩
    · show q.read = q.read + min 0 (q.written - q.read)
      omega
    · show (0 : Nat) = min 0 (q.written - q.read)
      omega
    · show q.written - q.read = 0 ↔ q.written - q.read ≤ 0
      omega
  | succ k ih =>
    by_cases h : 0 < q.written - q.read
    · rw [txConsumeTokens, txConsumerStep_pos qsz q h]
      obtain ⟨ih1, ih2, ih3, ih4⟩ := ih { q with read := q.read + 1 }
      dsimp only at ih1 ih2 ih3 ih4 ⊢
      refine ⟨?_, ?_, ?_, ?_⟩ <;>
        (try simp only [Option.toList, List.length_append, List.length_cons,
          List.length_nil, List.singleton_append]) <;>
        omega
    · rw [txConsumeTokens, txConsumerStep_none qsz q h]
      obtain ⟨ih1, ih2, ih3, ih4⟩ := ih q
      dsimp only at ih1 ih2 ih3 ih4 ⊢
      refine ⟨?_, ?_, ?_, ?_⟩ <;>
        (try simp only [Option.toList, List.nil_append]) <;>
        omega

/-!
## Capability enabling in Uhyve::new (src/linux/uhyve.rs lines 222-258)

Each vm.enable_cap call is abstracted by a boolean oracle saying
whether the host accepted the enable request for that capability.
Rust .expect panics when the call failed, .expect_err panics when the
call succeeded; panics in the constructor are modelled as Except.error.
-/

/-- The four capabilities whose enable calls appear in Uhyve::new, in
source order. -/
inductive KvmCap where
  | x2apicApi
  | tscDeadlineTimer
  | irqfd
  | x86DisableExits
  deriving Repr, DecidableEq

/-- Rust result.expect(msg): panics (errors) unless the call succeeded. -/
def expectSucceeded (ok : Bool) (msg : String) : Except String Unit :=
  if ok then Except.ok () else Except.error msg

/-- Rust result.expect_err(msg): panics (errors) unless the call failed. -/
def expectFailed (ok : Bool) (msg : String) : Except String Unit :=
  if ok then Except.error msg else Except.ok ()

/-- The capability-enable sequence of Uhyve::new, in source order:
x2apic expected to succeed, tsc deadline timer expected to fail, irqfd
expected to fail, x86 disable-exits expected to succeed. -/
def capabilitySetup (enable : KvmCap → Bool) : Except String Unit := do
  expectSucceeded (enable KvmCap.x2apicApi) "Unable to enable x2apic support"
  expectFailed (enable KvmCap.tscDeadlineTimer)
    "Processor feature tsc deadline is not supported!"
  expectFailed (enable KvmCap.irqfd) "The support of KVM_CAP_IRQFD is currently required"
  expectSucceeded (enable KvmCap.x86DisableExits)
    "Unable to disable exists due pause instructions"

/-- C3: the capability-enable sequence panics unless the enable calls
for KVM_CAP_TSC_DEADLINE_TIMER and KVM_CAP_IRQFD return an error and
the enable calls for KVM_CAP_X2APIC_API and KVM_CAP_X86_DISABLE_EXITS
succeed. -/
theorem C3_capability_expectations (enable : KvmCap → Bool) :
    (capabilitySetup enable).isOk = true ↔
      (enable KvmCap.x2apicApi = true ∧
       enable KvmCap.tscDeadlineTimer = false ∧
       enable KvmCap.irqfd = false ∧
       enable KvmCap.x86DisableExits = true) := by
  cases h1 : enable KvmCap.x2apicApi <;>
    cases h2 : enable KvmCap.tscDeadlineTimer <;>
      cases h3 : enable KvmCap.irqfd <;>
        cases h4 : enable KvmCap.x86DisableExits <;>
          simp [capabilitySetup, expectSucceeded, expectFailed, h1, h2, h3, h4,
            Except.isOk, Except.toBool, bind, Except.bind]

/-!
## Configuration record (vm::Parameter) and the constructor checks
-/

/-- Configuration handed from main to Uhyve::new, mirroring the fields
of vm::Parameter that the verified paths read. -/
structure Parameter where
  mem_size : Nat
  num_cpus : Nat
  verbose : Bool
  hugepage : Bool
  mergeable : Bool
  ip : Option String
  gateway : Option String
  mask : Option String
  nic : Option String
  gdbport : Option Nat
  deriving Repr, DecidableEq

/-- Value bound to nic in main (src/bin/uhyve.rs line 225).  The NETIF
option is registered with clap (help text, HERMIT_NETIF environment
fallback), but the binding discards it: the right-hand side is the
literal None with the lookup commented out. -/
def mainNicValue (_netif : Option String) : Option String := none

/-- Whether Uhyve::new creates the TAP bridge (src/linux/uhyve.rs lines
263-273): a UhyveNetwork is constructed exactly when specs.nic is
Some. -/
def uhyveDeviceCreated (nic : Option String) : Bool := nic.isSome

/-- C4: evaluating the main-level nic binding at a command line that
passes the NETIF value tap0 shows the value is discarded, no nic
reaches Uhyve::new, and no TAP bridge is created, for this and every
other NETIF value. -/
theorem C4_nic_flag_ignored :
    mainNicValue (some "tap0") = none ∧
    uhyveDeviceCreated (mainNicValue (some "tap0")) = false ∧
    (∀ netif : Option String, uhyveDeviceCreated (mainNicValue netif) = false) := by
  exact ⟨rfl, rfl, fun _ => rfl⟩

/-- Result of a successful Uhyve::new, keeping the fields the claims
observe. -/
structure UhyveModel where
  regions : List KvmMemRegion
  num_cpus : Nat
  hasTapBridge : Bool
  gdb_port : Option Nat
  deriving Repr, DecidableEq

/-- Constructor checks of Uhyve::new in source order: the capability
sequence (lines 222-258), then the TAP bridge (lines 263-273), then the
assert that a gdb port requires exactly one CPU (lines 275-278).  Host
ioctl outcomes are abstracted by the enable oracle; a returned model
means the constructor reached the end without panicking, so vCPUs can
only be created (create_cpu) afterwards, on the returned model. -/
def uhyveNew (enable : KvmCap → Bool) (specs : Parameter) : Except String UhyveModel := do
  capabilitySetup enable
  let dev := uhyveDeviceCreated specs.nic
  if specs.gdbport.isNone || specs.num_cpus == 1 then
    Except.ok
      { regions := installedRegions specs.mem_size
        num_cpus := specs.num_cpus
        hasTapBridge := dev
        gdb_port := specs.gdbport }
  else
    Except.error "gdbstub is only supported with one CPU"

/-- An enable oracle matching the expectations of the source (the two
expected-to-fail capabilities fail, the others succeed). -/
def expectedEnable : KvmCap → Bool
  | KvmCap.x2apicApi => true
  | KvmCap.tscDeadlineTimer => false
  | KvmCap.irqfd => false
  | KvmCap.x86DisableExits => true

/-- C6: provided the capability expectations hold (so the constructor
reaches the assert), construction fails exactly when a gdb port is
configured together with num_cpus different from 1; since vCPUs are
created only from a successfully returned constructor value, the
failure precedes any vCPU. -/
theorem C6_gdb_requires_single_cpu (enable : KvmCap → Bool) (specs : Parameter)
    (hcap : capabilitySetup enable = Except.ok ()) :
    ((uhyveNew enable specs).isOk = false ↔
      (specs.gdbport.isSome = true ∧ specs.num_cpus ≠ 1)) := by
  cases hg : specs.gdbport with
  | none => simp [uhyveNew, hcap, hg, bind, Except.bind, Except.isOk, Except.toBool]
  | some p =>
    by_cases hn : specs.num_cpus = 1 <;>
      simp [uhyveNew, hcap, hg, hn, bind, Except.bind, Except.isOk, Except.toBool]

/-- C6 witness: a concrete rejected configuration (gdb port 1234 with
two CPUs) and a concrete accepted one (gdb port absent). -/
theorem C6_gdb_requires_single_cpu_witness :
    capabilitySetup expectedEnable = Except.ok () ∧
    (uhyveNew expectedEnable
      { mem_size := 67108864, num_cpus := 2, verbose := false, hugepage := true,
        mergeable := false, ip := none, gateway := none, mask := none,
        nic := none, gdbport := some 1234 }).isOk = false := by
  refine ⟨rfl, ?_⟩
  exact (C6_gdb_requires_single_cpu expectedEnable _ rfl).mpr (by decide)

/-- C2 witness: on the two-pending ring a token sends the slot 0
payload, and exactly two tokens deliver both packets. -/
theorem C2_consumer_one_packet_per_token_witness :
    (txConsumerStep 8 txTwoPending).2 = some [42] ∧
    (txConsumeTokens 8 2 txTwoPending).2.length = 2 := by
  have h := C2_consumer_one_packet_per_token 8 2 txTwoPending
  constructor
  · rw [h.1 (by decide)]
    decide
  · rw [h.2.2.2.1]
    decide

/-!
## Interleavings of the host ring loops (C5)

The RX producer loop body (src/linux/uhyve.rs lines 88-111) and the TX
consumer body (lines 62-78) are the two host-side operations on a ring.
An interleaving is a list of such steps applied to a ring state.
-/

/-- One host-side ring operation. -/
inductive RingStep where
  | produce (pkt : QueueSlot)
  | consume
  deriving Repr, DecidableEq

/-- One guarded host step on a ring.  The producer writes slot
written mod qsz and increments written only when written - read < qsz,
otherwise it spins (state unchanged); the consumer reads slot
read mod qsz and increments read only when written - read > 0.  The
second component is the slot index accessed, if any. -/
def ringStep (qsz : Nat) (q : SharedQueue) : RingStep → SharedQueue × Option Nat
  | RingStep.produce pkt =>
    if q.written - q.read < qsz then
      ({ q with inner := q.inner.set (q.written % qsz) pkt, written := q.written + 1 },
        some (q.written % qsz))
    else
      (q, none)
  | RingStep.consume =>
    if 0 < q.written - q.read then
      ({ q with read := q.read + 1 }, some (q.read % qsz))
    else
      (q, none)

/-- Run an interleaving of host steps, collecting accessed slot
indices. -/
def ringRun (qsz : Nat) : List RingStep → SharedQueue → SharedQueue × List Nat
  | [], q => (q, [])
  | s :: rest, q =>
    let st := ringStep qsz q s
    let r := ringRun qsz rest st.1
    (r.1, st.2.toList ++ r.2)

/-- The ring invariant of the specification. -/
def ringInv (qsz : Nat) (q : SharedQueue) : Prop :=
  q.read ≤ q.written ∧ q.written - q.read ≤ qsz

theorem ringStep_inv (qsz : Nat) (q : SharedQueue) (s : RingStep) (h : ringInv qsz q) :
    ringInv qsz (ringStep qsz q s).1 ∧ ∀ i ∈ (ringStep qsz q s).2, i < qsz := by
  obtain ⟨h1, h2⟩ := h
  cases s with
  | produce pkt =>
    by_cases hg : q.written - q.read < qsz
    · have hq : 0 < qsz := by omega
      refine ⟨⟨?_, ?_⟩, ?_⟩
      · simp [ringStep, hg]; omega
      · simp [ringStep, hg]; omega
      · simp [ringStep, hg, Option.mem_def]
        exact Nat.mod_lt _ hq
    · simp only [ringStep, if_neg hg]
      exact ⟨⟨h1, h2⟩, by simp⟩
  | consume =>
    by_cases hg : 0 < q.written - q.read
    · have hq : 0 < qsz := by omega
      refine ⟨⟨?_, ?_⟩, ?_⟩
      · simp [ringStep, hg]; omega
      · simp [ringStep, hg]; omega
      · simp [ringStep, hg, Option.mem_def]
        exact Nat.mod_lt _ hq
    · simp only [ringStep, if_neg hg]
      exact ⟨⟨h1, h2⟩, by simp⟩

theorem ringRun_inv (qsz : Nat) (steps : List RingStep) (q : SharedQueue)
    (h : ringInv qsz q) :
    ringInv qsz (ringRun qsz steps q).1 ∧ ∀ i ∈ (ringRun qsz steps q).2, i < qsz := by
  induction steps generalizing q with
  | nil => exact ⟨h, by simp [ringRun]⟩
  | cons s rest ih =>
    obtain ⟨hs, hacc⟩ := ringStep_inv qsz q s h
    obtain ⟨hr, haccs⟩ := ih (ringStep qsz q s).1 hs
    refine ⟨hr, ?_⟩
    intro i hi
    simp only [ringRun, List.mem_append, Option.mem_toList] at hi
    rcases hi with hi | hi
    · exact hacc i hi
    · exact haccs i hi

/-- C5: from zeroed indices, every interleaving of the guarded RX
producer steps and TX consumer steps preserves written at least read
and written - read at most qsz, and every slot access (producer at
written mod qsz, consumer at read mod qsz) stays inside the slot
array. -/
theorem C5_ring_invariants (qsz : Nat) (steps : List RingStep) (inner0 : List QueueSlot) :
    ((ringRun qsz steps { read := 0, written := 0, inner := inner0 }).1.read ≤
      (ringRun qsz steps { read := 0, written := 0, inner := inner0 }).1.written) ∧
    ((ringRun qsz steps { read := 0, written := 0, inner := inner0 }).1.written -
      (ringRun qsz steps { read := 0, written := 0, inner := inner0 }).1.read ≤ qsz) ∧
    (∀ i ∈ (ringRun qsz steps { read := 0, written := 0, inner := inner0 }).2, i < qsz) := by
  have h := ringRun_inv qsz steps { read := 0, written := 0, inner := inner0 }
    ⟨Nat.le_refl 0, Nat.zero_le qsz⟩
  exact ⟨h.1.1, h.1.2, h.2⟩

/-! ## Guest memory size selection in main (src/bin/uhyve.rs lines 25-26, 180-198) -/

/-- Rust: const MINIMAL_GUEST_SIZE: usize = 16 * 1024 * 1024. -/
def MINIMAL_GUEST_SIZE : Nat := 16 * 1024 * 1024

/-- Rust: const DEFAULT_GUEST_SIZE: usize = 64 * 1024 * 1024. -/
def DEFAULT_GUEST_SIZE : Nat := 64 * 1024 * 1024

/-- The mem_size computation in main: a parsed request below
MINIMAL_GUEST_SIZE is replaced by MINIMAL_GUEST_SIZE and the resize
warning is emitted (the Bool), an absent request falls back to
DEFAULT_GUEST_SIZE, any other request passes through unchanged. -/
def effectiveMemSize : Option Nat → Nat × Bool
  | some mem =>
    if mem < MINIMAL_GUEST_SIZE then (MINIMAL_GUEST_SIZE, true) else (mem, false)
  | none => (DEFAULT_GUEST_SIZE, false)

/-- C7: requests below 16 MiB are clamped to exactly 16 MiB with a
warning, an absent request defaults to 64 MiB, and requests of at
least 16 MiB are used unchanged with no warning. -/
theorem C7_mem_size_clamp (m : Nat) :
    (m < MINIMAL_GUEST_SIZE → effectiveMemSize (some m) = (MINIMAL_GUEST_SIZE, true)) ∧
    (MINIMAL_GUEST_SIZE ≤ m → effectiveMemSize (some m) = (m, false)) ∧
    effectiveMemSize none = (DEFAULT_GUEST_SIZE, false) ∧
    MINIMAL_GUEST_SIZE = 16 * 1024 * 1024 ∧
    DEFAULT_GUEST_SIZE = 64 * 1024 * 1024 := by
  refine ⟨fun h => ?_, fun h => ?_, rfl, rfl, rfl⟩
  · simp [effectiveMemSize, h]
  · simp [effectiveMemSize, Nat.not_lt.mpr h]

/-- C7 witness: requesting 1 MiB yields 16 MiB plus a warning. -/
theorem C7_mem_size_clamp_witness :
    effectiveMemSize (some 1048576) = (16777216, true) := by
  exact (C7_mem_size_clamp 1048576).1 (by decide)

/-! ## CPU affinity count check in main (src/bin/uhyve.rs lines 205-220) -/

/-- Usable host cores: the core ids the process may run on, filtered by
membership in the parsed affinity set. -/
def affinityCoreIds (parsed_affinity : List Nat) (available : List Nat) : List Nat :=
  available.filter (fun c => parsed_affinity.contains c)

/-- The assert_eq in main comparing the filtered core count against
num_cpus.  It runs while the configuration is being assembled, before
Uhyve::new and before any vCPU exists; a mismatch panics. -/
def affinityCheck (parsed_affinity : List Nat) (available : List Nat)
    (num_cpus : Nat) : Except String (List Nat) :=
  let core_ids := affinityCoreIds parsed_affinity available
  if core_ids.length = num_cpus then Except.ok core_ids
  else Except.error "assertion failed: core_ids.len() == num_cpus as usize"

/-- C8: the affinity check passes exactly when the usable core set has
num_cpus elements; in particular cpus 2 with affinity 0 fails during
configuration parsing, whatever cores the host offers beyond core 0. -/
theorem C8_affinity_count_mismatch (aff avail : List Nat) (n : Nat) :
    ((affinityCheck aff avail n).isOk = true ↔ (affinityCoreIds aff avail).length = n) ∧
    (affinityCheck [0] [0, 1, 2, 3] 2).isOk = false := by
  constructor
  · by_cases h : (affinityCoreIds aff avail).length = n <;>
      simp [affinityCheck, h, Except.isOk, Except.toBool]
  · decide

/-! ## MmapMemory teardown (src/linux/uhyve.rs lines 443-451) -/

/-- Drop for MmapMemory as a transformer of the host mapping state:
mapped = true means the anonymous mapping is installed, and munmap
removes it.  The drop body calls munmap whenever memory_size > 0; that
guard holds for every constructed MmapMemory because mmap rejects a
zero length, so the constructor cannot return a zero-sized mapping. -/
def mmapMemoryDrop (memory_size : Nat) (mapped : Bool) : Bool :=
  if 0 < memory_size then false else mapped

/-- C9: dropping releases the mapping (for the always-satisfied guard
memory_size > 0 the state after drop is unmapped, from any prior
state), and the release is idempotent: running the drop body a second
time leaves the mapping state exactly where one drop left it, so
nothing is released twice and nothing stays mapped. -/
theorem C9_drop_release_idempotent (memory_size : Nat) (mapped : Bool) :
    (0 < memory_size → mmapMemoryDrop memory_size mapped = false) ∧
    mmapMemoryDrop memory_size (mmapMemoryDrop memory_size mapped) =
      mmapMemoryDrop memory_size mapped := by
  by_cases h : 0 < memory_size <;> simp [mmapMemoryDrop, h]

/-- C9 witness: a 16 MiB mapping is released by one drop and unchanged
by a second. -/
theorem C9_drop_release_idempotent_witness :
    mmapMemoryDrop 16777216 true = false ∧
    mmapMemoryDrop 16777216 (mmapMemoryDrop 16777216 true) =
      mmapMemoryDrop 16777216 true := by
  exact ⟨(C9_drop_release_idempotent 16777216 true).1 (by decide),
    (C9_drop_release_idempotent 16777216 true).2⟩

/-! ## Vm::cpu_online and set_boot_info (src/linux/uhyve.rs lines 362-372) -/

/-- BootInfo fields read by the verified path. -/
structure BootInfo where
  cpu_online : Nat
  deriving Repr, DecidableEq

/-- The Uhyve state cpu_online reads: boot_info models the raw pointer,
none standing for ptr::null(). -/
structure UhyveVmState where
  boot_info : Option BootInfo
  deriving Repr, DecidableEq

/-- Vm::set_boot_info: store the header pointer. -/
def set_boot_info (u : UhyveVmState) (header : Option BootInfo) : UhyveVmState :=
  { u with boot_info := header }

/-- Vm::cpu_online: 0 while the boot_info pointer is null, otherwise
the volatile read of the cpu_online field of the pointed-to BootInfo. -/
def cpu_online (u : UhyveVmState) : Nat :=
  match u.boot_info with
  | none => 0
  | some bi => bi.cpu_online

/-- C10: before set_boot_info runs (null boot_info) cpu_online returns
0; after set_boot_info installs a BootInfo, cpu_online returns that
BootInfo cpu_online field. -/
theorem C10_cpu_online_boot_info (u : UhyveVmState) (bi : BootInfo) :
    (u.boot_info = none → cpu_online u = 0) ∧
    cpu_online (set_boot_info u (some bi)) = bi.cpu_online := by
  constructor
  · intro h
    simp [cpu_online, h]
  · rfl

/-- C10 witness: cpu_online is 0 on the null pointer and 3 after a
BootInfo with cpu_online = 3 is installed. -/
theorem C10_cpu_online_boot_info_witness :
    cpu_online { boot_info := none } = 0 ∧
    cpu_online (set_boot_info { boot_info := none } (some { cpu_online := 3 })) = 3 := by
  exact ⟨(C10_cpu_online_boot_info { boot_info := none } { cpu_online := 3 }).1 rfl,
    (C10_cpu_online_boot_info { boot_info := none } { cpu_online := 3 }).2⟩

end Uhyve
